import Mathlib

/-!
# Builtin plugin registry and request-gateway helpers of `vault`

A shallow embedding of

* `helper/builtinplugins/builtin.go`   (`databasePlugins`, `BuiltinFactory`, `Get`, `Keys`),
* `helper/builtinplugins/registry.go`  (`credentialBackends`, `logicalBackends`,
  `toBuiltinFactory`),
* `logical/plugin/plugin_types.go`     (`PluginType` and its three constants),
* the MFA header parser and the error classifier exercised by `http/handler_test.go`,
  modelled from sections 4.2 and 4.5 of the specification,

followed by the properties the specification states about them.

Conventions of the embedding:

* a Go `map[string]V` built from a literal is an association list in the order of the
  literal, read with `mapIndex` (the two-result index expression `m[k]`) and written with
  `mapSet`; the order of the entries is never observed by a statement, except through the
  explicit visiting order handed to `Keys`;
* a Go `func() (interface{}, error)` is a function `Unit → Iface × Option Err`, the
  `nil` error being `none`;
* symbols of packages that are imported but lie outside these files are the fields of
  `Imports`.
-/

namespace Vault

/-! ## `logical/plugin/plugin_types.go` -/

/-- `type PluginType int`. -/
abbrev PluginType := Int

/-- `PluginTypeCredential PluginType = iota`. -/
def PluginTypeCredential : PluginType := 0

/-- Second constant of the `iota` block. -/
def PluginTypeSecrets : PluginType := 1

/-- Third constant of the `iota` block. -/
def PluginTypeDatabase : PluginType := 2

/-! ## Go maps -/

/-- A Go `map[string]V`, as the list of its entries. -/
abbrev GoMap (V : Type) := List (String × V)

/-- The index expression `v, ok := m[k]`: the entry and `true`, or the zero value (`nil`,
here `none`) and `false`. -/
def mapIndex {V : Type} (m : GoMap V) (k : String) : Option V × Bool :=
  match m.lookup k with
  | some v => (some v, true)
  | none => (none, false)

/-- The key set of a map, in entry order. -/
def mapKeys {V : Type} (m : GoMap V) : List String :=
  m.map Prod.fst

/-! ## `helper/builtinplugins` -/

/-- `type BuiltinFactory func() (interface{}, error)`. -/
abbrev BuiltinFactory (Iface Err : Type) := Unit → Iface × Option Err

/-- The imported symbols the two files refer to. `Factory p` is the `Factory` symbol of the
package with import path `p`, `New p` the `New` symbol of the database plugin package `p`;
`mysqlNew` is `mysql.New` of `plugins/database/mysql`, and the five integers are the length
constants of that package and of `credsutil`. -/
structure Imports (Iface Err : Type) where
  Factory : String → Iface
  New : String → BuiltinFactory Iface Err
  mysqlNew : Int → Int → Int → BuiltinFactory Iface Err
  MetadataLen : Int
  UsernameLen : Int
  LegacyMetadataLen : Int
  LegacyUsernameLen : Int
  NoneLength : Int

/-- `func toBuiltinFactory(ifc interface{}) BuiltinFactory`: the closure
`func() (interface{}, error) { return ifc, nil }`. -/
def toBuiltinFactory {Iface Err : Type} (ifc : Iface) : BuiltinFactory Iface Err :=
  fun _ => (ifc, none)

/-- `var databasePlugins = map[string]BuiltinFactory{...}` of `builtin.go`. -/
def databasePlugins {Iface Err : Type} (imp : Imports Iface Err) :
    GoMap (BuiltinFactory Iface Err) :=
  [ ("mysql-database-plugin",
      imp.mysqlNew imp.MetadataLen imp.MetadataLen imp.UsernameLen),
    ("mysql-aurora-database-plugin",
      imp.mysqlNew imp.NoneLength imp.LegacyMetadataLen imp.LegacyUsernameLen),
    ("mysql-rds-database-plugin",
      imp.mysqlNew imp.NoneLength imp.LegacyMetadataLen imp.LegacyUsernameLen),
    ("mysql-legacy-database-plugin",
      imp.mysqlNew imp.NoneLength imp.LegacyMetadataLen imp.LegacyUsernameLen),
    ("postgresql-database-plugin",
      imp.New "github.com/hashicorp/vault/plugins/database/postgresql"),
    ("mssql-database-plugin",
      imp.New "github.com/hashicorp/vault/plugins/database/mssql"),
    ("cassandra-database-plugin",
      imp.New "github.com/hashicorp/vault/plugins/database/cassandra"),
    ("mongodb-database-plugin",
      imp.New "github.com/hashicorp/vault/plugins/database/mongodb"),
    ("hana-database-plugin",
      imp.New "github.com/hashicorp/vault/plugins/database/hana") ]

/-- `var credentialBackends = map[string]BuiltinFactory{...}` of `registry.go`. -/
def credentialBackends {Iface Err : Type} (imp : Imports Iface Err) :
    GoMap (BuiltinFactory Iface Err) :=
  [ ("alicloud", toBuiltinFactory (imp.Factory "github.com/hashicorp/vault-plugin-auth-alicloud")),
    ("app-id", toBuiltinFactory (imp.Factory "github.com/hashicorp/vault/builtin/credential/app-id")),
    ("approle", toBuiltinFactory (imp.Factory "github.com/hashicorp/vault/builtin/credential/approle")),
    ("aws", toBuiltinFactory (imp.Factory "github.com/hashicorp/vault/builtin/credential/aws")),
    ("azure", toBuiltinFactory (imp.Factory "github.com/hashicorp/vault-plugin-auth-azure")),
    ("centrify", toBuiltinFactory (imp.Factory "github.com/hashicorp/vault-plugin-auth-centrify")),
    ("cert", toBuiltinFactory (imp.Factory "github.com/hashicorp/vault/builtin/credential/cert")),
    ("gcp", toBuiltinFactory (imp.Factory "github.com/hashicorp/vault-plugin-auth-gcp/plugin")),
    ("github", toBuiltinFactory (imp.Factory "github.com/hashicorp/vault/builtin/credential/github")),
    ("jwt", toBuiltinFactory (imp.Factory "github.com/hashicorp/vault-plugin-auth-jwt")),
    ("kubernetes", toBuiltinFactory (imp.Factory "github.com/hashicorp/vault-plugin-auth-kubernetes")),
    ("ldap", toBuiltinFactory (imp.Factory "github.com/hashicorp/vault/builtin/credential/ldap")),
    ("okta", toBuiltinFactory (imp.Factory "github.com/hashicorp/vault/builtin/credential/okta")),
    ("radius", toBuiltinFactory (imp.Factory "github.com/hashicorp/vault/builtin/credential/radius")),
    ("userpass", toBuiltinFactory (imp.Factory "github.com/hashicorp/vault/builtin/credential/userpass")) ]

/-- `var logicalBackends = map[string]BuiltinFactory{...}` of `registry.go`. -/
def logicalBackends {Iface Err : Type} (imp : Imports Iface Err) :
    GoMap (BuiltinFactory Iface Err) :=
  [ ("ad", toBuiltinFactory (imp.Factory "github.com/hashicorp/vault-plugin-secrets-ad/plugin")),
    ("alicloud", toBuiltinFactory (imp.Factory "github.com/hashicorp/vault-plugin-secrets-alicloud")),
    ("aws", toBuiltinFactory (imp.Factory "github.com/hashicorp/vault/builtin/logical/aws")),
    ("azure", toBuiltinFactory (imp.Factory "github.com/hashicorp/vault-plugin-secrets-azure")),
    ("cassandra", toBuiltinFactory (imp.Factory "github.com/hashicorp/vault/builtin/logical/cassandra")),
    ("consul", toBuiltinFactory (imp.Factory "github.com/hashicorp/vault/builtin/logical/consul")),
    ("database", toBuiltinFactory (imp.Factory "github.com/hashicorp/vault/builtin/logical/database")),
    ("gcp", toBuiltinFactory (imp.Factory "github.com/hashicorp/vault-plugin-secrets-gcp/plugin")),
    ("kv", toBuiltinFactory (imp.Factory "github.com/hashicorp/vault-plugin-secrets-kv")),
    ("mongodb", toBuiltinFactory (imp.Factory "github.com/hashicorp/vault/builtin/logical/mongodb")),
    ("mssql", toBuiltinFactory (imp.Factory "github.com/hashicorp/vault/builtin/logical/mssql")),
    ("mysql", toBuiltinFactory (imp.Factory "github.com/hashicorp/vault/builtin/logical/mysql")),
    ("nomad", toBuiltinFactory (imp.Factory "github.com/hashicorp/vault/builtin/logical/nomad")),
    ("pki", toBuiltinFactory (imp.Factory "github.com/hashicorp/vault/builtin/logical/pki")),
    ("plugin", toBuiltinFactory (imp.Factory "github.com/hashicorp/vault/builtin/plugin")),
    ("postgresql", toBuiltinFactory (imp.Factory "github.com/hashicorp/vault/builtin/logical/postgresql")),
    ("rabbitmq", toBuiltinFactory (imp.Factory "github.com/hashicorp/vault/builtin/logical/rabbitmq")),
    ("ssh", toBuiltinFactory (imp.Factory "github.com/hashicorp/vault/builtin/logical/ssh")),
    ("totp", toBuiltinFactory (imp.Factory "github.com/hashicorp/vault/builtin/logical/totp")),
    ("transit", toBuiltinFactory (imp.Factory "github.com/hashicorp/vault/builtin/logical/transit")) ]

/-- `func Get(name string, pluginType plugin.PluginType) (BuiltinFactory, bool)`:
`searchMap` starts as a fresh empty map, the `switch` replaces it for the three known
plugin types, and the result is `searchMap[name]`. -/
def Get {Iface Err : Type} (imp : Imports Iface Err) (name : String)
    (pluginType : PluginType) : Option (BuiltinFactory Iface Err) × Bool :=
  let searchMap : GoMap (BuiltinFactory Iface Err) := []
  let searchMap :=
    if pluginType = PluginTypeCredential then credentialBackends imp
    else if pluginType = PluginTypeSecrets then logicalBackends imp
    else if pluginType = PluginTypeDatabase then databasePlugins imp
    else searchMap
  mapIndex searchMap name

/-- The loop body of `Keys`: `keys[i] = k; i++`, folded over the entries in the order the
`range` statement visits them. -/
def keysLoop {V : Type} : List (String × V) → List String × Nat → List String × Nat
  | [], st => st
  | (k, _) :: rest, (keys, i) => keysLoop rest (keys.set i k, i + 1)

/-- `func Keys() []string`: `keys := make([]string, len(databasePlugins))`, then the loop.
Go leaves the iteration order of `range` over a map unspecified, so the order `visit` in
which the entries of `databasePlugins` are visited is an argument. -/
def Keys {Iface Err : Type} (imp : Imports Iface Err)
    (visit : List (String × BuiltinFactory Iface Err)) : List String :=
  let keys := List.replicate (databasePlugins imp).length ""
  (keysLoop visit (keys, 0)).1

/-- An instance of the imports that records what each symbol was built from: a `Factory`
is named by its import path, and the object built by a `New` carries the path and the
arguments of the call. -/
inductive Sym where
  | factory (path : String)
  | built (path : String) (args : List Int)
  deriving DecidableEq, Repr

/-- The recording imports, with sample values for the five length constants. -/
def symImports : Imports Sym String where
  Factory := Sym.factory
  New := fun path _ => (Sym.built path [], none)
  mysqlNew := fun a b c _ =>
    (Sym.built "github.com/hashicorp/vault/plugins/database/mysql" [a, b, c], none)
  MetadataLen := 10
  UsernameLen := 32
  LegacyMetadataLen := 4
  LegacyUsernameLen := 16
  NoneLength := -1

/-- The arguments of the `mysql.New` call that built the database plugin `name`, read off
the object its factory constructs under the recording imports. -/
def mysqlNewArgs (name : String) : Option (List Int) :=
  match (Get symImports name PluginTypeDatabase).1 with
  | some f =>
    match (f ()).1 with
    | Sym.built _ args => some args
    | Sym.factory _ => none
  | none => none

/-! ## `http`: the MFA header parser and the error classifier

`parseMFAHeader` and `respondError` are defined in `http/handler.go`; only
`http/handler_test.go`, which calls them, is embedded here. Both functions are modelled
from the specification (§4.2 and §4.5), and the calls of the test are replayed on the
model. -/

/-- The assignment `m[k] = v` on a Go map: the entry for `k` is replaced, or added. -/
def mapSet {V : Type} : GoMap V → String → V → GoMap V
  | [], k, v => [(k, v)]
  | (k', v') :: m, k, v => if k' = k then (k, v) :: m else (k', v') :: mapSet m k v

/-- `logical.MFACreds`, a `map[string][]string` from method name to credential values. -/
abbrev MFACreds := GoMap (List String)

/-- Modelled from the spec: the single failure of the MFA header parser, "fail with a
malformed-header error" (§4.2 step 3); `parseMFAHeader` itself is missing. -/
inductive MFAError where
  | malformedHeader
  deriving DecidableEq, Repr

/-- Modelled from the spec: "split on the first ':' character" (§4.2 step 1), on the
characters of a header value; `none` when no colon is present. Part of the missing
`parseMFAHeader`. -/
def splitFirstColonChars : List Char → Option (List Char × List Char)
  | [] => none
  | c :: cs =>
    if c = ':' then some ([], cs)
    else (splitFirstColonChars cs).map (fun p => (c :: p.1, p.2))

/-- Modelled from the spec: the split of §4.2 step 1 on strings; part of the missing
`parseMFAHeader`. -/
def splitFirstColon (value : String) : Option (String × String) :=
  (splitFirstColonChars value.data).map (fun p => (String.mk p.1, String.mk p.2))

/-- Modelled from the spec: the "trimming" of §4.2 step 3, taken as removal of leading and
trailing whitespace (space, tab, carriage return, line feed); part of the missing
`parseMFAHeader`. -/
def trimSpace (s : String) : String :=
  String.mk ((s.data.dropWhile Char.isWhitespace).reverse.dropWhile Char.isWhitespace).reverse

/-- Modelled from the spec: one iteration of the missing `parseMFAHeader` (§4.2 steps
1 to 3) on one header value.
* No colon: the whole value is the method name and must be non-empty (an empty one is
  rejected); an entry for it is ensured to exist, and no value is appended.
* Colon: the left part is the method name, the right part the value; both must be
  non-empty after trimming, otherwise the malformed-header error; the value is appended
  to the sequence of the method, which is created if new. -/
def parseMFAValue (creds : MFACreds) (value : String) : Except MFAError MFACreds :=
  match splitFirstColon value with
  | none =>
    if value = "" then Except.error MFAError.malformedHeader
    else
      match creds.lookup value with
      | some _ => Except.ok creds
      | none => Except.ok (mapSet creds value [])
  | some (method, v) =>
    if trimSpace method = "" ∨ trimSpace v = "" then Except.error MFAError.malformedHeader
    else Except.ok (mapSet creds method ((creds.lookup method).getD [] ++ [v]))

/-- Modelled from the spec: the loop of the missing `parseMFAHeader` over the header
values in arrival order (§4.2 step 4), stopping at the first failure. -/
def parseMFALoop : List String → MFACreds → Except MFAError MFACreds
  | [], creds => Except.ok creds
  | value :: rest, creds =>
    match parseMFAValue creds value with
    | Except.error e => Except.error e
    | Except.ok creds' => parseMFALoop rest creds'

/-- Modelled from the spec: the missing `parseMFAHeader` of `http/handler.go` (§4.2), on
the values of the MFA header of a request (`req.Headers[headerName]`); the result is the
bundle stored in `req.MFACreds`, built from an empty bundle on every call. -/
def parseMFAHeader (values : List String) : Except MFAError MFACreds :=
  parseMFALoop values []

/-- One well-formed header entry before it is written on the wire: a bare method, or a
method with a value. -/
inductive MFAToken where
  | bare (method : String)
  | pair (method value : String)
  deriving DecidableEq, Repr

/-- The wire form `method` or `method:value` of a header entry (§6). -/
def MFAToken.render : MFAToken → String
  | MFAToken.bare method => method
  | MFAToken.pair method value => method ++ ":" ++ value

/-- The method a header entry names. -/
def MFAToken.method : MFAToken → String
  | MFAToken.bare method => method
  | MFAToken.pair method _ => method

/-- The values a header entry gives for its method: none for a bare method, one
otherwise. -/
def MFAToken.values : MFAToken → List String
  | MFAToken.bare _ => []
  | MFAToken.pair _ value => [value]

/-- Well-formedness as §3 words it: a non-empty bare method, or a method and a value
split at the first colon (so the method holds no colon), both non-empty. -/
def MFAToken.wellFormedPlain : MFAToken → Prop
  | MFAToken.bare method => method ≠ "" ∧ ':' ∉ method.data
  | MFAToken.pair method value => method ≠ "" ∧ value ≠ "" ∧ ':' ∉ method.data

/-- Well-formedness as §4.2 words it: a non-empty bare method, or a method and a value
split at the first colon, both non-empty after trimming. -/
def MFAToken.wellFormed : MFAToken → Prop
  | MFAToken.bare method => method ≠ "" ∧ ':' ∉ method.data
  | MFAToken.pair method value =>
    trimSpace method ≠ "" ∧ trimSpace value ≠ "" ∧ ':' ∉ method.data

instance MFAToken.decWellFormedPlain : (t : MFAToken) → Decidable t.wellFormedPlain
  | MFAToken.bare method => inferInstanceAs (Decidable (method ≠ "" ∧ ':' ∉ method.data))
  | MFAToken.pair method value =>
    inferInstanceAs (Decidable (method ≠ "" ∧ value ≠ "" ∧ ':' ∉ method.data))

instance MFAToken.decWellFormed : (t : MFAToken) → Decidable t.wellFormed
  | MFAToken.bare method => inferInstanceAs (Decidable (method ≠ "" ∧ ':' ∉ method.data))
  | MFAToken.pair method value =>
    inferInstanceAs
      (Decidable (trimSpace method ≠ "" ∧ trimSpace value ≠ "" ∧ ':' ∉ method.data))

/-- The values given for method `k` by a sequence of header entries, in arrival order. -/
def valuesFor (k : String) : List MFAToken → List String
  | [] => []
  | t :: rest => (if t.method = k then t.values else []) ++ valuesFor k rest

/-- Modelled from the spec: a failure handed to the error classifier (§4.5): whether it
is the distinguished "sealed" condition, and the status code it carries, if any. The
error values of the Go packages are missing. -/
structure Failure where
  sealed : Bool
  code : Option Int
  deriving DecidableEq, Repr

/-- Modelled from the spec: the plain error `errors.New(msg)` of the test, a failure of
the kind of §4.5 item 3: not sealed, no embedded code. The
message plays no part in the status. -/
def errorsNew (_msg : String) : Failure := ⟨false, none⟩

/-- Modelled from the spec: the error `logical.CodedError(status, msg)` of the test, whose
constructor is missing: a failure carrying an embedded status code (§4.5 item 2). -/
def CodedError (status : Int) (_msg : String) : Failure := ⟨false, some status⟩

/-- Modelled from the spec: the error `consts.ErrSealed` of the test, whose declaration is
missing: the distinguished sealed condition (§4.5 item 1). -/
def ErrSealed : Failure := ⟨true, none⟩

/-- Modelled from the spec: the missing `respondError(w, status, err)` of
`http/handler.go` (§4.5), as the status code written to `w`: 503 for the sealed condition,
else the embedded status code if there is one, else the caller-supplied `status`. -/
def respondError (status : Int) (err : Failure) : Int :=
  if err.sealed then 503
  else
    match err.code with
    | some c => c
    | none => status

/-! # Theorems -/

/-! ## Lemmas on Go maps -/

theorem mapIndex_snd {V : Type} (m : GoMap V) (k : String) :
    (mapIndex m k).2 = true ↔ k ∈ mapKeys m := by
  induction m with
  | nil => simp [mapIndex, mapKeys]
  | cons e m ih =>
    obtain ⟨k', v⟩ := e
    by_cases h : k = k'
    · subst h; simp [mapIndex, mapKeys, List.lookup]
    · have : (k == k') = false := by simpa using h
      simp only [mapIndex, List.lookup, this] at ih ⊢
      simp [mapKeys, h] at ih ⊢
      exact ih

theorem mapIndex_snd_eq {V : Type} (m : GoMap V) (k : String) :
    (mapIndex m k).2 = decide (k ∈ mapKeys m) := by
  by_cases h : k ∈ mapKeys m
  · simp [h, (mapIndex_snd m k).2 h]
  · have : ¬ (mapIndex m k).2 = true := fun hc => h ((mapIndex_snd m k).1 hc)
    simp [h, this]

theorem mapIndex_of_not_mem {V : Type} (m : GoMap V) (k : String) (h : k ∉ mapKeys m) :
    mapIndex m k = (none, false) := by
  induction m with
  | nil => simp [mapIndex]
  | cons e m ih =>
    obtain ⟨k', v⟩ := e
    have hk : ¬ k = k' := fun hc => h (by simp [mapKeys, hc])
    have hm : k ∉ mapKeys m := fun hc => h (by simp [mapKeys] at hc ⊢; exact Or.inr hc)
    have hb : (k == k') = false := by simpa using hk
    have := ih hm
    simp only [mapIndex, List.lookup, hb] at this ⊢
    exact this

theorem mapIndex_of_mem {V : Type} (m : GoMap V) (k : String) (v : V)
    (hnd : (mapKeys m).Nodup) (h : (k, v) ∈ m) : mapIndex m k = (some v, true) := by
  induction m with
  | nil => simp at h
  | cons e m ih =>
    obtain ⟨k', v'⟩ := e
    simp only [mapKeys, List.map_cons, List.nodup_cons] at hnd
    rcases List.mem_cons.1 h with heq | hin
    · cases heq
      simp [mapIndex, List.lookup]
    · have hk : ¬ k = k' := by
        intro hc
        apply hnd.1
        rw [← hc]
        exact List.mem_map_of_mem Prod.fst hin
      have hb : (k == k') = false := by simpa using hk
      have := ih hnd.2 hin
      simp only [mapIndex, List.lookup, hb] at this ⊢
      exact this

/-! ## The key sets of the three tables -/

theorem credentialBackends_keys {Iface Err : Type} (imp : Imports Iface Err) :
    mapKeys (credentialBackends imp) =
      ["alicloud", "app-id", "approle", "aws", "azure", "centrify", "cert", "gcp", "github",
        "jwt", "kubernetes", "ldap", "okta", "radius", "userpass"] := rfl

theorem logicalBackends_keys {Iface Err : Type} (imp : Imports Iface Err) :
    mapKeys (logicalBackends imp) =
      ["ad", "alicloud", "aws", "azure", "cassandra", "consul", "database", "gcp", "kv",
        "mongodb", "mssql", "mysql", "nomad", "pki", "plugin", "postgresql", "rabbitmq", "ssh",
        "totp", "transit"] := rfl

theorem databasePlugins_keys {Iface Err : Type} (imp : Imports Iface Err) :
    mapKeys (databasePlugins imp) =
      ["mysql-database-plugin", "mysql-aurora-database-plugin", "mysql-rds-database-plugin",
        "mysql-legacy-database-plugin", "postgresql-database-plugin", "mssql-database-plugin",
        "cassandra-database-plugin", "mongodb-database-plugin", "hana-database-plugin"] := rfl

theorem credentialBackends_nodup {Iface Err : Type} (imp : Imports Iface Err) :
    (mapKeys (credentialBackends imp)).Nodup := by
  rw [credentialBackends_keys]; decide

theorem logicalBackends_nodup {Iface Err : Type} (imp : Imports Iface Err) :
    (mapKeys (logicalBackends imp)).Nodup := by
  rw [logicalBackends_keys]; decide

theorem databasePlugins_nodup {Iface Err : Type} (imp : Imports Iface Err) :
    (mapKeys (databasePlugins imp)).Nodup := by
  rw [databasePlugins_keys]; decide

/-! ## `Get` on the three known plugin types -/

theorem Get_credential {Iface Err : Type} (imp : Imports Iface Err) (n : String) :
    Get imp n PluginTypeCredential = mapIndex (credentialBackends imp) n := rfl

theorem Get_secrets {Iface Err : Type} (imp : Imports Iface Err) (n : String) :
    Get imp n PluginTypeSecrets = mapIndex (logicalBackends imp) n := rfl

theorem Get_database {Iface Err : Type} (imp : Imports Iface Err) (n : String) :
    Get imp n PluginTypeDatabase = mapIndex (databasePlugins imp) n := rfl

/-- The three plugin types paired with the table each one selects. -/
theorem Get_eq_mapIndex {Iface Err : Type} (imp : Imports Iface Err) (n : String)
    (c : PluginType) (table : GoMap (BuiltinFactory Iface Err))
    (hc : (c, table) ∈ [(PluginTypeCredential, credentialBackends imp),
      (PluginTypeSecrets, logicalBackends imp), (PluginTypeDatabase, databasePlugins imp)]) :
    Get imp n c = mapIndex table n ∧ (mapKeys table).Nodup := by
  simp only [List.mem_cons, Prod.mk.injEq, List.mem_singleton, List.not_mem_nil, or_false] at hc
  rcases hc with ⟨rfl, rfl⟩ | ⟨rfl, rfl⟩ | ⟨rfl, rfl⟩
  · exact ⟨rfl, credentialBackends_nodup imp⟩
  · exact ⟨rfl, logicalBackends_nodup imp⟩
  · exact ⟨rfl, databasePlugins_nodup imp⟩

/-- C1: for each of the three plugin types and the table it selects, `Get n c` reports
`found = true` exactly when `n` is a key of that table; every entry `(n, f)` of the table
is returned as `(f, true)`; and a name that is not a key yields `(nil, false)`. `Get` is a
total function, so the lookup never fails. -/
theorem Get_found_iff_key {Iface Err : Type} (imp : Imports Iface Err) (n : String)
    (c : PluginType) (table : GoMap (BuiltinFactory Iface Err))
    (hc : (c, table) ∈ [(PluginTypeCredential, credentialBackends imp),
      (PluginTypeSecrets, logicalBackends imp), (PluginTypeDatabase, databasePlugins imp)]) :
    ((Get imp n c).2 = true ↔ n ∈ mapKeys table) ∧
    (∀ f, (n, f) ∈ table → Get imp n c = (some f, true)) ∧
    (n ∉ mapKeys table → Get imp n c = (none, false)) := by
  obtain ⟨hget, hnd⟩ := Get_eq_mapIndex imp n c table hc
  rw [hget]
  exact ⟨mapIndex_snd table n, fun f hf => mapIndex_of_mem table n f hnd hf,
    mapIndex_of_not_mem table n⟩

/-- Instance of C1 on the recording imports: `"kv"` under the secrets type is found with
the entry of `logicalBackends`, and `"no-such-backend"` is not found. -/
theorem Get_found_iff_key_witness :
    (PluginTypeSecrets, logicalBackends symImports) ∈
      [(PluginTypeCredential, credentialBackends symImports),
        (PluginTypeSecrets, logicalBackends symImports),
        (PluginTypeDatabase, databasePlugins symImports)] ∧
    ("kv", toBuiltinFactory (Sym.factory "github.com/hashicorp/vault-plugin-secrets-kv"))
      ∈ logicalBackends symImports ∧
    Get symImports "kv" PluginTypeSecrets =
      (some (toBuiltinFactory (Sym.factory "github.com/hashicorp/vault-plugin-secrets-kv")),
        true) :=
  have hc : (PluginTypeSecrets, logicalBackends symImports) ∈
      [(PluginTypeCredential, credentialBackends symImports),
        (PluginTypeSecrets, logicalBackends symImports),
        (PluginTypeDatabase, databasePlugins symImports)] := by simp
  have hm : ("kv", toBuiltinFactory (Sym.factory "github.com/hashicorp/vault-plugin-secrets-kv"))
      ∈ logicalBackends symImports := by simp [logicalBackends, symImports]
  ⟨hc, hm, (Get_found_iff_key symImports "kv" PluginTypeSecrets _ hc).2.1 _ hm⟩

/-- The found flag of `Get` as membership in the concrete key list of each table. -/
theorem Get_found_credential {Iface Err : Type} (imp : Imports Iface Err) (n : String) :
    (Get imp n PluginTypeCredential).2 = decide (n ∈ mapKeys (credentialBackends symImports)) := by
  rw [Get_credential, mapIndex_snd_eq]; rfl

theorem Get_found_secrets {Iface Err : Type} (imp : Imports Iface Err) (n : String) :
    (Get imp n PluginTypeSecrets).2 = decide (n ∈ mapKeys (logicalBackends symImports)) := by
  rw [Get_secrets, mapIndex_snd_eq]; rfl

theorem Get_found_database {Iface Err : Type} (imp : Imports Iface Err) (n : String) :
    (Get imp n PluginTypeDatabase).2 = decide (n ∈ mapKeys (databasePlugins symImports)) := by
  rw [Get_database, mapIndex_snd_eq]; rfl

/-- C2, refuted as stated: `"aws"` is registered under the credential type, the secrets
type is a different type, and yet `Get "aws" PluginTypeSecrets` reports `found = true`. -/
theorem Get_wrong_category_counterexample :
    "aws" ∈ mapKeys (credentialBackends symImports) ∧
    PluginTypeSecrets ≠ PluginTypeCredential ∧
    (Get symImports "aws" PluginTypeSecrets).2 = true := by
  decide

/-- C2, amended: a name registered under one plugin type is not found under a different
plugin type, except for the four names `alicloud`, `aws`, `azure` and `gcp`, which are keys
of both `credentialBackends` and `logicalBackends` and are therefore found under the other
of these two types. No key of `databasePlugins` is found under another type and no key of
another table is found under the database type. -/
theorem Get_wrong_category {Iface Err : Type} (imp : Imports Iface Err) (n : String) :
    (n ∈ mapKeys (credentialBackends imp) →
      ((Get imp n PluginTypeSecrets).2 = true ↔ n ∈ ["alicloud", "aws", "azure", "gcp"]) ∧
      (Get imp n PluginTypeDatabase).2 = false) ∧
    (n ∈ mapKeys (logicalBackends imp) →
      ((Get imp n PluginTypeCredential).2 = true ↔ n ∈ ["alicloud", "aws", "azure", "gcp"]) ∧
      (Get imp n PluginTypeDatabase).2 = false) ∧
    (n ∈ mapKeys (databasePlugins imp) →
      (Get imp n PluginTypeCredential).2 = false ∧ (Get imp n PluginTypeSecrets).2 = false) := by
  rw [Get_found_credential, Get_found_secrets, Get_found_database]
  have h1 : ∀ m ∈ mapKeys (credentialBackends symImports),
      (decide (m ∈ mapKeys (logicalBackends symImports)) = true ↔
        m ∈ ["alicloud", "aws", "azure", "gcp"]) ∧
      decide (m ∈ mapKeys (databasePlugins symImports)) = false := by decide
  have h2 : ∀ m ∈ mapKeys (logicalBackends symImports),
      (decide (m ∈ mapKeys (credentialBackends symImports)) = true ↔
        m ∈ ["alicloud", "aws", "azure", "gcp"]) ∧
      decide (m ∈ mapKeys (databasePlugins symImports)) = false := by decide
  have h3 : ∀ m ∈ mapKeys (databasePlugins symImports),
      decide (m ∈ mapKeys (credentialBackends symImports)) = false ∧
      decide (m ∈ mapKeys (logicalBackends symImports)) = false := by decide
  exact ⟨fun h => h1 n h, fun h => h2 n h, fun h => h3 n h⟩

/-- Instance of the amended C2: `"approle"` is a credential backend and is found neither
under the secrets type nor under the database type. -/
theorem Get_wrong_category_witness :
    "approle" ∈ mapKeys (credentialBackends symImports) ∧
    (Get symImports "approle" PluginTypeSecrets).2 = false ∧
    (Get symImports "approle" PluginTypeDatabase).2 = false :=
  have hm : "approle" ∈ mapKeys (credentialBackends symImports) := by decide
  have h := (Get_wrong_category symImports "approle").1 hm
  ⟨hm, by
    cases hs : (Get symImports "approle" PluginTypeSecrets).2
    · rfl
    · exact absurd (h.1.1 hs) (by decide), h.2⟩

/-- C3: `"aws"` is found under the credential type with the `"aws"` entry of
`credentialBackends`, found under the secrets type with the `"aws"` entry of
`logicalBackends`, and not found under the database type. -/
theorem Get_aws {Iface Err : Type} (imp : Imports Iface Err) :
    Get imp "aws" PluginTypeCredential = ((credentialBackends imp).lookup "aws", true) ∧
    Get imp "aws" PluginTypeSecrets = ((logicalBackends imp).lookup "aws", true) ∧
    (credentialBackends imp).lookup "aws" = some (toBuiltinFactory
      (imp.Factory "github.com/hashicorp/vault/builtin/credential/aws")) ∧
    (logicalBackends imp).lookup "aws" = some (toBuiltinFactory
      (imp.Factory "github.com/hashicorp/vault/builtin/logical/aws")) ∧
    Get imp "aws" PluginTypeDatabase = (none, false) := by
  refine ⟨rfl, rfl, rfl, rfl, rfl⟩
/-- C4, refuted as stated: on the recording imports the argument triples of the three
legacy-compatible MySQL entries are not pairwise distinct; all three are the same triple
`(NoneLength, LegacyMetadataLen, LegacyUsernameLen)`. -/
theorem legacy_mysql_policies_counterexample :
    ¬ List.Pairwise (fun a b => a ≠ b)
      [mysqlNewArgs "mysql-aurora-database-plugin", mysqlNewArgs "mysql-rds-database-plugin",
        mysqlNewArgs "mysql-legacy-database-plugin"] ∧
    mysqlNewArgs "mysql-aurora-database-plugin" =
      some [symImports.NoneLength, symImports.LegacyMetadataLen, symImports.LegacyUsernameLen] ∧
    mysqlNewArgs "mysql-rds-database-plugin" = mysqlNewArgs "mysql-aurora-database-plugin" ∧
    mysqlNewArgs "mysql-legacy-database-plugin" = mysqlNewArgs "mysql-aurora-database-plugin" := by
  decide

/-- C4, amended: the three legacy-compatible MySQL variants are registered under three
different names with one and the same triple of length arguments: each entry is
`mysql.New(credsutil.NoneLength, mysql.LegacyMetadataLen, mysql.LegacyUsernameLen)`,
whatever the values of the constants, while `mysql-database-plugin` is
`mysql.New(mysql.MetadataLen, mysql.MetadataLen, mysql.UsernameLen)`. -/
theorem legacy_mysql_policies {Iface Err : Type} (imp : Imports Iface Err) :
    Get imp "mysql-aurora-database-plugin" PluginTypeDatabase =
      (some (imp.mysqlNew imp.NoneLength imp.LegacyMetadataLen imp.LegacyUsernameLen), true) ∧
    Get imp "mysql-rds-database-plugin" PluginTypeDatabase =
      (some (imp.mysqlNew imp.NoneLength imp.LegacyMetadataLen imp.LegacyUsernameLen), true) ∧
    Get imp "mysql-legacy-database-plugin" PluginTypeDatabase =
      (some (imp.mysqlNew imp.NoneLength imp.LegacyMetadataLen imp.LegacyUsernameLen), true) ∧
    Get imp "mysql-database-plugin" PluginTypeDatabase =
      (some (imp.mysqlNew imp.MetadataLen imp.MetadataLen imp.UsernameLen), true) ∧
    List.Pairwise (fun a b => a ≠ b)
      ["mysql-aurora-database-plugin", "mysql-rds-database-plugin",
        "mysql-legacy-database-plugin"] := by
  refine ⟨rfl, rfl, rfl, rfl, by decide⟩

/-! ## `Keys` -/

theorem keysLoop_fst {V : Type} (visit : List (String × V)) :
    ∀ (pre suf : List String), visit.length ≤ suf.length →
      (keysLoop visit (pre ++ suf, pre.length)).1 =
        pre ++ visit.map Prod.fst ++ suf.drop visit.length := by
  induction visit with
  | nil => intro pre suf _; simp [keysLoop]
  | cons e rest ih =>
    intro pre suf hlen
    obtain ⟨k, v⟩ := e
    cases suf with
    | nil => simp at hlen
    | cons s suf =>
      have hset : (pre ++ s :: suf).set pre.length k = (pre ++ [k]) ++ suf := by
        simp [List.set_append]
      have hl : (pre ++ [k]).length = pre.length + 1 := by simp
      have hlen' : rest.length ≤ suf.length := by simpa using hlen
      simp only [keysLoop, hset]
      rw [← hl, ih (pre ++ [k]) suf hlen']
      simp

/-- With every entry of `databasePlugins` visited once, `Keys` is the list of visited keys. -/
theorem Keys_eq_map {Iface Err : Type} (imp : Imports Iface Err)
    (visit : List (String × BuiltinFactory Iface Err))
    (h : visit.Perm (databasePlugins imp)) : Keys imp visit = visit.map Prod.fst := by
  have hlen : visit.length = (databasePlugins imp).length := h.length_eq
  have := keysLoop_fst visit [] (List.replicate (databasePlugins imp).length "")
    (by simp [hlen])
  simp only [List.nil_append, List.length_nil] at this
  rw [← hlen] at this
  unfold Keys
  simp only [← hlen, this, List.drop_replicate, Nat.sub_self, List.replicate_zero,
    List.append_nil]

theorem Keys_perm {Iface Err : Type} (imp : Imports Iface Err)
    (visit : List (String × BuiltinFactory Iface Err))
    (h : visit.Perm (databasePlugins imp)) :
    (Keys imp visit).Perm (mapKeys (databasePlugins imp)) := by
  rw [Keys_eq_map imp visit h]
  exact h.map Prod.fst

/-- C5: whatever order the `range` loop visits the entries of `databasePlugins` in, `Keys`
has as many elements as `databasePlugins` has entries, namely 9, contains no name twice,
and contains a name exactly when `Get` finds it under the database type. -/
theorem Keys_enumerates_databasePlugins {Iface Err : Type} (imp : Imports Iface Err)
    (visit : List (String × BuiltinFactory Iface Err))
    (h : visit.Perm (databasePlugins imp)) :
    (Keys imp visit).length = (databasePlugins imp).length ∧
    (databasePlugins imp).length = 9 ∧
    (Keys imp visit).Nodup ∧
    ∀ n, n ∈ Keys imp visit ↔ (Get imp n PluginTypeDatabase).2 = true := by
  have hp := Keys_perm imp visit h
  refine ⟨?_, rfl, ?_, ?_⟩
  · rw [hp.length_eq]; simp [mapKeys]
  · exact hp.nodup_iff.2 (databasePlugins_nodup imp)
  · intro n
    rw [Get_database, mapIndex_snd]
    exact hp.mem_iff

/-- Instance of C5 on the recording imports, the entries visited in reverse order of the
literal. -/
theorem Keys_enumerates_databasePlugins_witness :
    (databasePlugins symImports).reverse.Perm (databasePlugins symImports) ∧
    (Keys symImports (databasePlugins symImports).reverse).length = 9 ∧
    (Keys symImports (databasePlugins symImports).reverse).Nodup ∧
    ("hana-database-plugin" ∈ Keys symImports (databasePlugins symImports).reverse ↔
      (Get symImports "hana-database-plugin" PluginTypeDatabase).2 = true) :=
  have h := Keys_enumerates_databasePlugins symImports (databasePlugins symImports).reverse
    (List.reverse_perm _)
  ⟨List.reverse_perm _, h.1.trans h.2.1, h.2.2.1, h.2.2.2 "hana-database-plugin"⟩

/-- C6, refuted as stated: `"approle"` is found under the credential type and `"kv"` under
the secrets type, but neither is in the listing `Keys`, which has no category argument and
enumerates `databasePlugins` only. -/
theorem Keys_per_category_counterexample :
    (Get symImports "approle" PluginTypeCredential).2 = true ∧
    "approle" ∉ Keys symImports (databasePlugins symImports) ∧
    (Get symImports "kv" PluginTypeSecrets).2 = true ∧
    "kv" ∉ Keys symImports (databasePlugins symImports) := by
  decide

/-- C6, amended: the name listing exists for the database category only and agrees with
lookup there: a name is in `Keys` exactly when `Get` finds it under the database type. No
name registered as a credential or secrets backend is returned by `Keys`. -/
theorem Keys_database_only {Iface Err : Type} (imp : Imports Iface Err)
    (visit : List (String × BuiltinFactory Iface Err))
    (h : visit.Perm (databasePlugins imp)) (n : String) :
    (n ∈ Keys imp visit ↔ (Get imp n PluginTypeDatabase).2 = true) ∧
    (n ∈ mapKeys (credentialBackends imp) → n ∉ Keys imp visit) ∧
    (n ∈ mapKeys (logicalBackends imp) → n ∉ Keys imp visit) := by
  have hp := Keys_perm imp visit h
  have hmem : n ∈ Keys imp visit ↔ n ∈ mapKeys (databasePlugins symImports) := hp.mem_iff
  have h1 : ∀ m ∈ mapKeys (credentialBackends symImports),
      m ∉ mapKeys (databasePlugins symImports) := by decide
  have h2 : ∀ m ∈ mapKeys (logicalBackends symImports),
      m ∉ mapKeys (databasePlugins symImports) := by decide
  refine ⟨?_, fun hc hk => h1 n hc (hmem.1 hk), fun hc hk => h2 n hc (hmem.1 hk)⟩
  rw [Get_database, mapIndex_snd]
  exact hp.mem_iff

/-- Instance of the amended C6 on the recording imports: `"kv"` is a secrets backend and is
not listed by `Keys`. -/
theorem Keys_database_only_witness :
    (databasePlugins symImports).Perm (databasePlugins symImports) ∧
    "kv" ∈ mapKeys (logicalBackends symImports) ∧
    "kv" ∉ Keys symImports (databasePlugins symImports) :=
  have hm : "kv" ∈ mapKeys (logicalBackends symImports) := by decide
  ⟨List.Perm.refl _, hm,
    (Keys_database_only symImports (databasePlugins symImports) (List.Perm.refl _) "kv").2.2 hm⟩

/-- C7: for every value `v`, calling `toBuiltinFactory v` returns exactly `v` and a `nil`
error, on every call; hence every entry of `credentialBackends` and of `logicalBackends`
is a constructor that returns one fixed instance and never an error. -/
theorem toBuiltinFactory_returns {Iface Err : Type} :
    (∀ (v : Iface) (call : Unit), (toBuiltinFactory v : BuiltinFactory Iface Err) call = (v, none)) ∧
    ∀ (imp : Imports Iface Err) (name : String) (f : BuiltinFactory Iface Err),
      (name, f) ∈ credentialBackends imp ∨ (name, f) ∈ logicalBackends imp →
      ∃ v : Iface, ∀ call : Unit, f call = (v, none) := by
  refine ⟨fun _ _ => rfl, ?_⟩
  intro imp name f hf
  rcases hf with hf | hf
  · simp only [credentialBackends, List.mem_cons, Prod.mk.injEq, List.mem_singleton,
      List.not_mem_nil, or_false] at hf
    rcases hf with ⟨_, rfl⟩ | ⟨_, rfl⟩ | ⟨_, rfl⟩ | ⟨_, rfl⟩ | ⟨_, rfl⟩ | ⟨_, rfl⟩ | ⟨_, rfl⟩ |
      ⟨_, rfl⟩ | ⟨_, rfl⟩ | ⟨_, rfl⟩ | ⟨_, rfl⟩ | ⟨_, rfl⟩ | ⟨_, rfl⟩ | ⟨_, rfl⟩ | ⟨_, rfl⟩ <;>
      exact ⟨_, fun _ => rfl⟩
  · simp only [logicalBackends, List.mem_cons, Prod.mk.injEq, List.mem_singleton,
      List.not_mem_nil, or_false] at hf
    rcases hf with ⟨_, rfl⟩ | ⟨_, rfl⟩ | ⟨_, rfl⟩ | ⟨_, rfl⟩ | ⟨_, rfl⟩ | ⟨_, rfl⟩ | ⟨_, rfl⟩ |
      ⟨_, rfl⟩ | ⟨_, rfl⟩ | ⟨_, rfl⟩ | ⟨_, rfl⟩ | ⟨_, rfl⟩ | ⟨_, rfl⟩ | ⟨_, rfl⟩ | ⟨_, rfl⟩ |
      ⟨_, rfl⟩ | ⟨_, rfl⟩ | ⟨_, rfl⟩ | ⟨_, rfl⟩ | ⟨_, rfl⟩ <;>
      exact ⟨_, fun _ => rfl⟩

/-- Instance of C7 on the recording imports: the `"aws"` entry of `credentialBackends`
returns its wrapped value with no error. -/
theorem toBuiltinFactory_returns_witness :
    ("aws", toBuiltinFactory (Sym.factory "github.com/hashicorp/vault/builtin/credential/aws"))
      ∈ credentialBackends symImports ∧
    ∃ v : Sym, ∀ call : Unit, (toBuiltinFactory
      (Sym.factory "github.com/hashicorp/vault/builtin/credential/aws") :
        BuiltinFactory Sym String) call = (v, none) :=
  have hm : ("aws", toBuiltinFactory
      (Sym.factory "github.com/hashicorp/vault/builtin/credential/aws"))
      ∈ credentialBackends symImports := by simp [credentialBackends, symImports]
  ⟨hm, toBuiltinFactory_returns.2 symImports "aws" _ (Or.inl hm)⟩

/-! ## The MFA header parser -/

theorem lookup_mapSet {V : Type} (m : GoMap V) (k k' : String) (v : V) :
    (mapSet m k v).lookup k' = if k' = k then some v else m.lookup k' := by
  induction m with
  | nil =>
    by_cases h : k' = k
    · simp [mapSet, List.lookup, h]
    · have hb : (k' == k) = false := by simpa using h
      simp [mapSet, List.lookup, h, hb]
  | cons e m ih =>
    obtain ⟨k0, v0⟩ := e
    by_cases h0 : k0 = k
    · subst h0
      by_cases h : k' = k0
      · simp [mapSet, List.lookup, h]
      · have hb : (k' == k0) = false := by simpa using h
        simp [mapSet, List.lookup, h, hb]
    · by_cases h : k' = k0
      · subst h
        have hne : ¬ k' = k := h0
        simp [mapSet, List.lookup, h0, hne]
      · have hb : (k' == k0) = false := by simpa using h
        simp only [mapSet, h0, if_false, List.lookup, hb]
        exact ih

theorem splitFirstColonChars_append (l r : List Char) (h : ':' ∉ l) :
    splitFirstColonChars (l ++ ':' :: r) = some (l, r) := by
  induction l with
  | nil => simp [splitFirstColonChars]
  | cons c cs ih =>
    have hc : ¬ c = ':' := fun hc => h (by simp [hc])
    have hcs : ':' ∉ cs := fun hm => h (by simp [hm])
    simp [splitFirstColonChars, hc, ih hcs]

theorem splitFirstColonChars_none (l : List Char) (h : ':' ∉ l) :
    splitFirstColonChars l = none := by
  induction l with
  | nil => simp [splitFirstColonChars]
  | cons c cs ih =>
    have hc : ¬ c = ':' := fun hc => h (by simp [hc])
    have hcs : ':' ∉ cs := fun hm => h (by simp [hm])
    simp [splitFirstColonChars, hc, ih hcs]

theorem splitFirstColon_pair (m v : String) (h : ':' ∉ m.data) :
    splitFirstColon (m ++ ":" ++ v) = some (m, v) := by
  have hd : (m ++ ":" ++ v).data = m.data ++ ':' :: v.data := by
    simp [String.data_append]
  simp [splitFirstColon, hd, splitFirstColonChars_append m.data v.data h]

theorem splitFirstColon_bare (m : String) (h : ':' ∉ m.data) :
    splitFirstColon m = none := by
  simp [splitFirstColon, splitFirstColonChars_none m.data h]

theorem trimSpace_empty : trimSpace "" = "" := by decide

/-- One well-formed header entry is accepted, and changes the bundle at its method only:
the values of the entry are appended to what the method had. -/
theorem parseMFAValue_render (creds : MFACreds) (t : MFAToken) (h : t.wellFormed) :
    ∃ creds', parseMFAValue creds t.render = Except.ok creds' ∧
      ∀ k, creds'.lookup k =
        if k = t.method then some ((creds.lookup k).getD [] ++ t.values) else creds.lookup k := by
  cases t with
  | bare m =>
    obtain ⟨hne, hcolon⟩ := h
    simp only [MFAToken.render, MFAToken.method, MFAToken.values, parseMFAValue,
      splitFirstColon_bare m hcolon, hne, if_false, List.append_nil]
    cases hl : List.lookup m creds with
    | some vs =>
      refine ⟨creds, rfl, fun k => ?_⟩
      by_cases hk : k = m
      · subst hk; simp [hl]
      · simp [hk]
    | none =>
      refine ⟨mapSet creds m [], rfl, fun k => ?_⟩
      rw [lookup_mapSet]
      by_cases hk : k = m
      · subst hk; simp [hl]
      · simp [hk]
  | pair m v =>
    obtain ⟨hm, hv, hcolon⟩ := h
    simp only [MFAToken.render, MFAToken.method, MFAToken.values, parseMFAValue,
      splitFirstColon_pair m v hcolon, hm, hv, or_self, if_false]
    refine ⟨_, rfl, fun k => ?_⟩
    rw [lookup_mapSet]
    by_cases hk : k = m
    · subst hk; simp
    · simp [hk]

theorem valuesFor_not_mem (k : String) (toks : List MFAToken)
    (h : k ∉ toks.map MFAToken.method) : valuesFor k toks = [] := by
  induction toks with
  | nil => rfl
  | cons t rest ih =>
    have ht : ¬ t.method = k := fun hc => h (by simp [hc])
    have hr : k ∉ rest.map MFAToken.method := fun hm => h (by simp at hm ⊢; exact Or.inr hm)
    simp [valuesFor, ht, ih hr]

/-- The loop on well-formed entries, from any bundle: it succeeds, and every method that
occurs ends with its previous values followed by the values given for it, in order. -/
theorem parseMFALoop_render (toks : List MFAToken) :
    ∀ creds : MFACreds, (∀ t ∈ toks, t.wellFormed) →
      ∃ creds', parseMFALoop (toks.map MFAToken.render) creds = Except.ok creds' ∧
        ∀ k, creds'.lookup k =
          if k ∈ toks.map MFAToken.method then
            some ((creds.lookup k).getD [] ++ valuesFor k toks)
          else creds.lookup k := by
  induction toks with
  | nil => intro creds _; exact ⟨creds, rfl, fun k => by simp⟩
  | cons t rest ih =>
    intro creds hwf
    obtain ⟨c1, hstep, hc1⟩ := parseMFAValue_render creds t (hwf t (List.mem_cons_self _ _))
    obtain ⟨c2, hloop, hc2⟩ := ih c1 (fun u hu => hwf u (List.mem_cons_of_mem _ hu))
    refine ⟨c2, ?_, fun k => ?_⟩
    · simp only [List.map_cons, parseMFALoop, hstep]
      exact hloop
    · rw [hc2 k, hc1 k]
      by_cases hk : k = t.method
      · subst hk
        by_cases hr : t.method ∈ rest.map MFAToken.method
        · simp [hr, valuesFor]
        · simp [hr, valuesFor, valuesFor_not_mem _ rest hr]
      · have hk' : ¬ t.method = k := fun hc => hk hc.symm
        by_cases hr : k ∈ rest.map MFAToken.method
        · simp [hr, hk, hk', valuesFor]
        · simp [hr, hk, hk', valuesFor]

theorem valuesFor_bare_only (k : String) (toks : List MFAToken)
    (h : ∀ v, MFAToken.pair k v ∉ toks) : valuesFor k toks = [] := by
  induction toks with
  | nil => rfl
  | cons t rest ih =>
    have hr : ∀ v, MFAToken.pair k v ∉ rest := fun v hv => h v (List.mem_cons_of_mem _ hv)
    cases t with
    | bare m => simp [valuesFor, MFAToken.values, ih hr]
    | pair m v =>
      have hm : ¬ m = k := fun hc => h v (by simp [hc])
      simp [valuesFor, MFAToken.method, hm, ih hr]

/-- A header value that the parser rejects from every bundle makes the loop fail. -/
theorem parseMFALoop_error (bad : String)
    (hbad : ∀ creds, parseMFAValue creds bad = Except.error MFAError.malformedHeader)
    (values : List String) (hmem : bad ∈ values) :
    ∀ creds, parseMFALoop values creds = Except.error MFAError.malformedHeader := by
  induction values with
  | nil => simp at hmem
  | cons value rest ih =>
    intro creds
    simp only [parseMFALoop]
    cases hstep : parseMFAValue creds value with
    | error e => cases e; rfl
    | ok c =>
      rcases List.mem_cons.1 hmem with heq | hin
      · rw [← heq, hbad creds] at hstep; cases hstep
      · exact ih hin c
/-- The second call of `TestHandler_parseMFAHandler`: the values of one method split over
three header occurrences are merged in order. -/
theorem parseMFAHeader_merges_occurrences :
    parseMFAHeader ["my_mfa:passcode=123456", "my_mfa:month=july", "my_mfa:day=tuesday"] =
      Except.ok [("my_mfa", ["passcode=123456", "month=july", "day=tuesday"])] := rfl

/-! ### Accumulation on the model of §4.2

The specification words the emptiness test on the two parts of `method:value` in two ways:
§3 asks that method and value "each be non-empty", §4.2 step 3 that they be "non-empty after
trimming", and the calls of `TestHandler_parseMFAHandler` contain no whitespace. The model
above follows §4.2. The next three theorems are facts of that model: a value whose part
after the colon is blank is rejected, and on entries whose parts are non-empty after
trimming the bundle accumulates the values per method in arrival order. Whether the parser
of `http/handler.go` accepts a blank part is not decided by them. -/

/-- On the model of §4.2, the header value `my_totp: ` is rejected: it is a method and a
value split at the first colon, both non-empty, but the value is empty after trimming. -/
theorem parseMFAHeader_rejects_blank_value :
    (MFAToken.pair "my_totp" " ").wellFormedPlain ∧
    [MFAToken.pair "my_totp" " "].map MFAToken.render = ["my_totp: "] ∧
    parseMFAHeader ["my_totp: "] = Except.error MFAError.malformedHeader :=
  ⟨by decide, by decide, rfl⟩

/-- On the model of §4.2, for every sequence of header entries that are each a non-empty
bare method or a method and a value split at the first colon and both non-empty after
trimming, `parseMFAHeader` succeeds on their wire forms, and the bundle maps each method
that occurs to exactly the values given for it, in arrival order across all entries, and
no other method; a method that occurs only bare is mapped to the empty sequence, as a
present key. The example of the specification is the last conjunct. -/
theorem parseMFAHeader_accumulates (toks : List MFAToken) (h : ∀ t ∈ toks, t.wellFormed) :
    (∃ creds, parseMFAHeader (toks.map MFAToken.render) = Except.ok creds ∧
      (∀ k, creds.lookup k =
        if k ∈ toks.map MFAToken.method then some (valuesFor k toks) else none) ∧
      (∀ k, MFAToken.bare k ∈ toks → (∀ v, MFAToken.pair k v ∉ toks) →
        creds.lookup k = some [])) ∧
    parseMFAHeader ["my_totp:123456", "my_totp:111111", "my_second_mfa:hi=hello",
        "my_third_mfa"] =
      Except.ok [("my_totp", ["123456", "111111"]), ("my_second_mfa", ["hi=hello"]),
        ("my_third_mfa", [])] := by
  refine ⟨?_, rfl⟩
  obtain ⟨creds, hrun, hlook⟩ := parseMFALoop_render toks [] h
  have hlook' : ∀ k, creds.lookup k =
      if k ∈ toks.map MFAToken.method then some (valuesFor k toks) else none := by
    intro k
    rw [hlook k]
    simp
  refine ⟨creds, hrun, hlook', fun k hb hp => ?_⟩
  have hmem : k ∈ toks.map MFAToken.method :=
    List.mem_map.2 ⟨MFAToken.bare k, hb, rfl⟩
  rw [hlook' k, if_pos hmem, valuesFor_bare_only k toks hp]

/-- Instance of the accumulation theorem at the example of the specification: the four header
values are well-formed and the bundle holds both codes of `my_totp` in order, the value of
`my_second_mfa`, the empty sequence for the bare `my_third_mfa`, and no other method. -/
theorem parseMFAHeader_accumulates_witness :
    (∀ t ∈ [MFAToken.pair "my_totp" "123456", MFAToken.pair "my_totp" "111111",
      MFAToken.pair "my_second_mfa" "hi=hello", MFAToken.bare "my_third_mfa"],
      t.wellFormed) ∧
    ∃ creds, parseMFAHeader ["my_totp:123456", "my_totp:111111", "my_second_mfa:hi=hello",
        "my_third_mfa"] = Except.ok creds ∧
      creds.lookup "my_totp" = some ["123456", "111111"] ∧
      creds.lookup "my_second_mfa" = some ["hi=hello"] ∧
      creds.lookup "my_third_mfa" = some [] ∧
      creds.lookup "my_fourth_mfa" = none :=
  have hwf : ∀ t ∈ [MFAToken.pair "my_totp" "123456", MFAToken.pair "my_totp" "111111",
      MFAToken.pair "my_second_mfa" "hi=hello", MFAToken.bare "my_third_mfa"],
      t.wellFormed := by decide
  match (parseMFAHeader_accumulates _ hwf).1 with
  | ⟨creds, hrun, hlook, _⟩ =>
    ⟨hwf, creds, hrun, (hlook "my_totp").trans (by decide),
      (hlook "my_second_mfa").trans (by decide), (hlook "my_third_mfa").trans (by decide),
      (hlook "my_fourth_mfa").trans (by decide)⟩

/-- C9: `parseMFAHeader` fails with the malformed-header error whenever one of the header
values contains a colon and the part before the first colon or the part after it is empty;
the three values `:`, `:passcode=123456` and `my_totp:` of the test are each rejected. -/
theorem parseMFAHeader_rejects_empty_part :
    (∀ (values : List String) (m v : String), ':' ∉ m.data → (m = "" ∨ v = "") →
      m ++ ":" ++ v ∈ values →
      parseMFAHeader values = Except.error MFAError.malformedHeader) ∧
    parseMFAHeader [":"] = Except.error MFAError.malformedHeader ∧
    parseMFAHeader [":passcode=123456"] = Except.error MFAError.malformedHeader ∧
    parseMFAHeader ["my_totp:"] = Except.error MFAError.malformedHeader := by
  refine ⟨?_, rfl, rfl, rfl⟩
  intro values m v hcolon hempty hmem
  refine parseMFALoop_error (m ++ ":" ++ v) (fun creds => ?_) values hmem []
  simp only [parseMFAValue, splitFirstColon_pair m v hcolon]
  rcases hempty with rfl | rfl
  · simp [trimSpace_empty]
  · simp [trimSpace_empty]

/-- Instance of C9: a well-formed value followed by `my_totp:`, whose part after the colon
is empty, is rejected as a whole. -/
theorem parseMFAHeader_rejects_empty_part_witness :
    ':' ∉ "my_totp".data ∧ ("my_totp" = "" ∨ "" = "") ∧
    "my_totp" ++ ":" ++ "" ∈ ["my_mfa:passcode=123456", "my_totp:"] ∧
    parseMFAHeader ["my_mfa:passcode=123456", "my_totp:"] =
      Except.error MFAError.malformedHeader :=
  have h1 : ':' ∉ "my_totp".data := by decide
  have h2 : "my_totp" = "" ∨ "" = "" := Or.inr rfl
  have h3 : "my_totp" ++ ":" ++ "" ∈ ["my_mfa:passcode=123456", "my_totp:"] := by decide
  ⟨h1, h2, h3, parseMFAHeader_rejects_empty_part.1 _ "my_totp" "" h1 h2 h3⟩

/-- C10: the error classifier resolves the status in strict priority order, for every
failure and every caller-supplied default `d`: 503 for the sealed condition whatever `d`
and whatever code the failure carries; else the embedded status code if there is one;
else `d`. The three calls of the test give 403, 500 and 503. -/
theorem respondError_priority (err : Failure) (d : Int) :
    (err.sealed = true → respondError d err = 503) ∧
    (∀ c, err.sealed = false → err.code = some c → respondError d err = c) ∧
    (err.sealed = false → err.code = none → respondError d err = d) ∧
    respondError 500 (CodedError 403 "error text") = 403 ∧
    respondError 500 (errorsNew "test Error") = 500 ∧
    respondError 400 ErrSealed = 503 := by
  refine ⟨fun hs => ?_, fun c hs hc => ?_, fun hs hc => ?_, rfl, rfl, rfl⟩
  · simp [respondError, hs]
  · simp [respondError, hs, hc]
  · simp [respondError, hs, hc]

/-- Instance of C10: a sealed failure that also carries the code 403 is answered 503 with
the default 400, and a coded 403 failure is answered 403 with the default 500. -/
theorem respondError_priority_witness :
    (Failure.mk true (some 403)).sealed = true ∧
    respondError 400 (Failure.mk true (some 403)) = 503 ∧
    (CodedError 403 "error text").sealed = false ∧
    (CodedError 403 "error text").code = some 403 ∧
    respondError 500 (CodedError 403 "error text") = 403 :=
  ⟨rfl, (respondError_priority (Failure.mk true (some 403)) 400).1 rfl, rfl, rfl,
    (respondError_priority (CodedError 403 "error text") 500).2.1 403 rfl rfl⟩

/-- C11: for every plugin type other than the three constants 0, 1 and 2 and for every
name, `Get` returns the `nil` factory and `found = false`: the `switch` matches no case,
`searchMap` stays the fresh empty map, and none of the three tables is read. -/
theorem Get_unknown_pluginType {Iface Err : Type} (imp : Imports Iface Err) (name : String)
    (pluginType : PluginType) (h0 : pluginType ≠ PluginTypeCredential)
    (h1 : pluginType ≠ PluginTypeSecrets) (h2 : pluginType ≠ PluginTypeDatabase) :
    Get imp name pluginType = (none, false) := by
  simp only [Get, h0, h1, h2, if_false]
  rfl

/-- Instance of C11 on the recording imports: `"aws"`, a key of two tables, is not found
under the plugin types 3 and -1. -/
theorem Get_unknown_pluginType_witness :
    (3 : PluginType) ≠ PluginTypeCredential ∧ (3 : PluginType) ≠ PluginTypeSecrets ∧
    (3 : PluginType) ≠ PluginTypeDatabase ∧
    Get symImports "aws" 3 = (none, false) ∧
    (-1 : PluginType) ≠ PluginTypeCredential ∧ (-1 : PluginType) ≠ PluginTypeSecrets ∧
    (-1 : PluginType) ≠ PluginTypeDatabase ∧
    Get symImports "aws" (-1) = (none, false) :=
  ⟨by decide, by decide, by decide,
    Get_unknown_pluginType symImports "aws" 3 (by decide) (by decide) (by decide),
    by decide, by decide, by decide,
    Get_unknown_pluginType symImports "aws" (-1) (by decide) (by decide) (by decide)⟩

/-- C12: the database table shares no name with the other two. Every name in `Keys`,
whatever the visiting order, and so every key of `databasePlugins`, is found neither under
the credential type nor under the secrets type; and no key of `credentialBackends` or of
`logicalBackends` is found under the database type. -/
theorem database_namespace_disjoint {Iface Err : Type} (imp : Imports Iface Err)
    (visit : List (String × BuiltinFactory Iface Err))
    (h : visit.Perm (databasePlugins imp)) (n : String) :
    (n ∈ Keys imp visit →
      (Get imp n PluginTypeCredential).2 = false ∧ (Get imp n PluginTypeSecrets).2 = false) ∧
    (n ∈ mapKeys (databasePlugins imp) →
      (Get imp n PluginTypeCredential).2 = false ∧ (Get imp n PluginTypeSecrets).2 = false) ∧
    (n ∈ mapKeys (credentialBackends imp) → (Get imp n PluginTypeDatabase).2 = false) ∧
    (n ∈ mapKeys (logicalBackends imp) → (Get imp n PluginTypeDatabase).2 = false) := by
  rw [Get_found_credential, Get_found_secrets, Get_found_database]
  have hmem : n ∈ Keys imp visit ↔ n ∈ mapKeys (databasePlugins symImports) :=
    (Keys_perm imp visit h).mem_iff
  have hd : ∀ m ∈ mapKeys (databasePlugins symImports),
      decide (m ∈ mapKeys (credentialBackends symImports)) = false ∧
      decide (m ∈ mapKeys (logicalBackends symImports)) = false := by decide
  have hc : ∀ m ∈ mapKeys (credentialBackends symImports),
      decide (m ∈ mapKeys (databasePlugins symImports)) = false := by decide
  have hl : ∀ m ∈ mapKeys (logicalBackends symImports),
      decide (m ∈ mapKeys (databasePlugins symImports)) = false := by decide
  exact ⟨fun hk => hd n (hmem.1 hk), fun hk => hd n hk, fun hk => hc n hk, fun hk => hl n hk⟩

/-- Instance of C12 on the recording imports, the entries visited in the order of the
literal: `"cassandra-database-plugin"` is listed by `Keys` and found under neither of the
other two types, and the secrets backend `"cassandra"` is not found under the database
type. -/
theorem database_namespace_disjoint_witness :
    (databasePlugins symImports).Perm (databasePlugins symImports) ∧
    "cassandra-database-plugin" ∈ Keys symImports (databasePlugins symImports) ∧
    (Get symImports "cassandra-database-plugin" PluginTypeCredential).2 = false ∧
    (Get symImports "cassandra-database-plugin" PluginTypeSecrets).2 = false ∧
    "cassandra" ∈ mapKeys (logicalBackends symImports) ∧
    (Get symImports "cassandra" PluginTypeDatabase).2 = false :=
  have hk : "cassandra-database-plugin" ∈ Keys symImports (databasePlugins symImports) := by
    decide
  have hl : "cassandra" ∈ mapKeys (logicalBackends symImports) := by decide
  have h1 := database_namespace_disjoint symImports (databasePlugins symImports)
    (List.Perm.refl _) "cassandra-database-plugin"
  have h2 := database_namespace_disjoint symImports (databasePlugins symImports)
    (List.Perm.refl _) "cassandra"
  ⟨List.Perm.refl _, hk, (h1.1 hk).1, (h1.1 hk).2, hl, h2.2.2.2 hl⟩

end Vault
